import Mathlib

/-!
# Invoice routes: payment application, totals, archive and listing

A shallow embedding of `src/server/routes/invoices.js`.

* The document store (the three Mongoose collections the router talks to) is an
  explicit `Store` value; every handler is a function from a store and a request
  to a response and a new store.
* A JavaScript number is a binary64 value.  Every finite binary64 value is a whole
  multiple of `2^-1074`, so a number is embedded as the integer count of that unit
  (`Double`), and `+`, `-` and `*` are the exact integer operations followed by
  rounding to 53 significant bits, ties to even (`Double.add`, `Double.sub`,
  `Double.mul`).  Comparisons are exact.  There is no infinity and no NaN: magnitudes
  from `2^1024` on are outside the model.
* A request body carries JSON numbers where the routes do arithmetic.  Other kinds of
  JSON value in `amount`, `quantity` or `unitPrice` (strings, booleans) end in casts
  made by Mongoose and are outside the model.
* A well-formed object id is a natural number.  Storage never fails, so the
  `catch` branches of the handlers are not reached.
* The Mongoose schemas (`server/models/*.js`) are not among the sources.  What the
  routes need from them is introduced below in definitions whose comment starts
  with "Modelled from the spec".
-/

namespace InvoiceModule

/-! ## Binary64 numbers -/

/-- A finite binary64 value, as its count of units of `2^-1074`.  The values the routes
compute are always binary64 values (`roundSigned_idem`); a number taken from a request
body is one because `JSON.parse` produced it. -/
abbrev Double := Int

/-- The number of units in the value 1. -/
def Double.unit : Nat := 2 ^ 1074

/-- The bits of `n` counted 64 at a time while `n` has more than 64 of them, then one
at a time; `fuel` bounds the recursion. -/
def bitLengthAux : Nat → Nat → Nat
  | 0, _ => 0
  | fuel + 1, n =>
    if n = 0 then 0
    else if n < 2 ^ 64 then bitLengthAux fuel (n / 2) + 1
    else bitLengthAux fuel (n / 2 ^ 64) + 64

/-- The number of binary digits of `n`: 0 for 0, and `k + 1` when `2^k <= n < 2^(k+1)`. -/
def bitLength (n : Nat) : Nat := bitLengthAux n n

/-- The integer nearest to `a / b`, a tie going to the even one. -/
def roundHalfEven (a b : Nat) : Nat :=
  let q := a / b
  let r := a % b
  if 2 * r < b then q else if b < 2 * r then q + 1 else if q % 2 = 0 then q else q + 1

/-- The binary64 value nearest to `p * 2^-(1074 + s)`, in units of `2^-1074`: the quantum
is `2^-1074` for a magnitude that needs at most 53 bits in that unit, and otherwise the
weight of the 53rd significant bit of `p`. -/
def roundMagnitude (p s : Nat) : Nat :=
  let shift := max (bitLength p - 53) s
  roundHalfEven p (2 ^ shift) * 2 ^ (shift - s)

/-- Rounding of a signed magnitude: round to nearest, ties to even, is symmetric. -/
def roundSigned (x : Int) (s : Nat) : Double :=
  if x < 0 then -((roundMagnitude x.natAbs s : Nat) : Int)
  else ((roundMagnitude x.natAbs s : Nat) : Int)

/-- The JavaScript `x + y` on numbers. -/
def Double.add (x y : Double) : Double := roundSigned (x + y) 0

/-- The JavaScript `x - y` on numbers. -/
def Double.sub (x y : Double) : Double := roundSigned (x - y) 0

/-- The JavaScript `x * y` on numbers: the exact product counts units of `2^-2148`. -/
def Double.mul (x y : Double) : Double := roundSigned (x * y) 1074

/-- The number with the integer value `k`, a binary64 value when `k` needs at most 53
bits. -/
def Double.ofInt (k : Int) : Double := k * ((2 ^ 1074 : Nat) : Int)

/-- The number a decimal literal of value `a / b` denotes (`b` positive): the binary64
value nearest to it, so `0.11` is `Double.ofQuotient 11 100`. -/
def Double.ofQuotient (a b : Nat) : Double :=
  let p := a * 2 ^ 1074
  let shift := bitLength (p / b) - 53
  ((roundHalfEven p (b * 2 ^ shift) * 2 ^ shift : Nat) : Int)

/-- An integer-valued number: a whole count of `Double.unit`. -/
def Double.IsInteger (x : Double) : Prop := (Double.unit : Int) ∣ x

/-- A number below `2^53`, the range in which every integer is a binary64 value. -/
def Double.BelowSafeLimit (x : Double) : Prop := x < 2 ^ 53 * (Double.unit : Int)

/-! ## Documents, requests and the store -/

/-- A well-formed document identifier. -/
abbrev ObjectId := Nat

/-- An `Invoice` document, with the fields the router and the client read or write. -/
structure Invoice where
  id : ObjectId
  invoiceNumber : String
  customerName : String
  issueDate : String
  dueDate : String
  status : String
  total : Double
  amountPaid : Double
  balanceDue : Double
  isArchived : Bool
  createdAt : Nat
  deriving DecidableEq, Repr

/-- An `InvoiceLine` document as built in `router.post('/')`. -/
structure InvoiceLine where
  id : ObjectId
  invoiceId : ObjectId
  description : String
  quantity : Double
  unitPrice : Double
  lineTotal : Double
  deriving DecidableEq, Repr

/-- A `Payment` document as built in `router.post('/:id/payments')`. -/
structure Payment where
  id : ObjectId
  invoiceId : ObjectId
  amount : Double
  paymentDate : Nat
  deriving DecidableEq, Repr

/-- An element of `req.body.lineItems`.  The route reads `description`, `quantity` and
`unitPrice` and checks none of them; `quantity` and `unitPrice` are JSON numbers of
either sign, whole or fractional. -/
structure LineItemInput where
  description : String
  quantity : Double
  unitPrice : Double
  deriving DecidableEq, Repr

/-- The body of `POST /api/invoices`; `lineItems` may be absent. -/
structure CreateBody where
  invoiceNumber : String
  customerName : String
  issueDate : String
  dueDate : String
  lineItems : Option (List LineItemInput)
  deriving DecidableEq, Repr

/-- The body of `POST /api/invoices/:id/payments`; both fields may be absent, and
`amount`, when present, is a JSON number of either sign, whole or fractional. -/
structure PaymentBody where
  amount : Option Double
  paymentDate : Option Nat
  deriving DecidableEq, Repr

/-- The three collections, and the next identifier the driver hands out. -/
structure Store where
  invoices : List Invoice
  lineItems : List InvoiceLine
  payments : List Payment
  nextId : ObjectId
  deriving DecidableEq, Repr

/-- The store before any request. -/
def Store.empty : Store := ⟨[], [], [], 0⟩

/-- Modelled from the spec: the Invoice schema (`server/models/Invoice.js`) is missing
from the sources, so the value of `status` on a new document comes from section 3 of
the spec: "enumeration UNPAID (or initial default), PAID". -/
def Invoice.defaultStatus : String := "UNPAID"

/-- Modelled from the spec: the Invoice schema is missing from the sources; a new
invoice is in the state `active` of the two-state machine of section 4.3, that is
`isArchived = false`. -/
def Invoice.defaultIsArchived : Bool := false

/-- Modelled from the spec: the Invoice schema is missing from the sources, and the
payment route itself never assigns `balanceDue`.  Section 3 of the spec makes it a
"derived value, invariant: balanceDue = total - amountPaid", and section 4.1 orders
the effects of a payment as "increment invoice.amountPaid by amount; recompute
balanceDue; if balanceDue is now exactly 0, set status to PAID".  This is that
recomputation. -/
def Invoice.recomputeBalanceDue (inv : Invoice) : Invoice :=
  { inv with balanceDue := Double.sub inv.total inv.amountPaid }

/-- The query `Invoice.findById(id)`. -/
def Store.findById (s : Store) (id : ObjectId) : Option Invoice :=
  s.invoices.find? (fun i => decide (i.id = id))

/-- The first `save()` of a new invoice document: an insert. -/
def Store.insertInvoice (s : Store) (inv : Invoice) : Store :=
  { s with invoices := s.invoices ++ [inv] }

/-- The `save()` of an invoice document that was loaded or already saved: the stored
document with the same `_id` is replaced. -/
def Store.updateInvoice (s : Store) (inv : Invoice) : Store :=
  { s with invoices := s.invoices.map (fun i => if i.id = inv.id then inv else i) }

/-- The response of `POST /:id/payments`: 400 with a message (and the balance due on
overpayment), 404, or 201 with the payment and the invoice summary. -/
inductive PaymentResponse where
  | badRequest (message : String) (balanceDue : Option Double)
  | notFound (message : String)
  | created (payment : Payment) (amountPaid : Double) (balanceDue : Double) (status : String)
  deriving DecidableEq, Repr

/-- The response of the archive and restore routes: 404, or 200 with the invoice. -/
inductive InvoiceResponse where
  | notFound (message : String)
  | ok (message : String) (invoice : Invoice)
  deriving DecidableEq, Repr

/-- The expression `paymentDate || Date.now()`. -/
def paymentDateOrNow (paymentDate : Option Nat) (now : Nat) : Nat :=
  match paymentDate with
  | none => now
  | some d => if d = 0 then now else d

/-- Lines 66-72 of `router.post('/:id/payments')`, the update of the loaded document:
`invoice.amountPaid += amount`, then `if (invoice.balanceDue === 0) invoice.status = 'PAID'`.
Between the two the route has no statement of its own; the balance due read by the
test is the one the Invoice model derives, `Invoice.recomputeBalanceDue`. -/
def Invoice.applyPayment (invoice : Invoice) (amount : Double) : Invoice :=
  let invoice1 :=
    ({ invoice with amountPaid := Double.add invoice.amountPaid amount }).recomputeBalanceDue
  if invoice1.balanceDue = 0 then { invoice1 with status := "PAID" } else invoice1

/-- The handler `router.post('/:id/payments')`. -/
def addPayment (s : Store) (id : ObjectId) (body : PaymentBody) (now : Nat) :
    PaymentResponse × Store :=
  match body.amount with
  | none => (.badRequest "Amount must be greater than 0" none, s)
  | some amount =>
    if amount = 0 ∨ amount ≤ 0 then
      (.badRequest "Amount must be greater than 0" none, s)
    else
      match s.findById id with
      | none => (.notFound "Invoice not found", s)
      | some invoice =>
        if amount > invoice.balanceDue then
          (.badRequest "Payment amount cannot exceed balance due" (some invoice.balanceDue), s)
        else
          let payment : Payment :=
            { id := s.nextId, invoiceId := id, amount := amount,
              paymentDate := paymentDateOrNow body.paymentDate now }
          let s1 : Store := { s with payments := s.payments ++ [payment], nextId := s.nextId + 1 }
          let invoice2 := invoice.applyPayment amount
          (.created payment invoice2.amountPaid invoice2.balanceDue invoice2.status,
            s1.updateInvoice invoice2)

/-- The handler `router.post('/:id/archive')`. -/
def archiveInvoice (s : Store) (id : ObjectId) : InvoiceResponse × Store :=
  match s.findById id with
  | none => (.notFound "Invoice not found", s)
  | some invoice =>
    let invoice1 := { invoice with isArchived := true }
    (.ok "Invoice archived successfully" invoice1, s.updateInvoice invoice1)

/-- The handler `router.post('/:id/restore')`. -/
def restoreInvoice (s : Store) (id : ObjectId) : InvoiceResponse × Store :=
  match s.findById id with
  | none => (.notFound "Invoice not found", s)
  | some invoice =>
    let invoice1 := { invoice with isArchived := false }
    (.ok "Invoice restored successfully" invoice1, s.updateInvoice invoice1)

/-- The filter built in `router.get('/')`: `archived === 'true'`. -/
def archivedFilter (archived : Option String) : Bool :=
  decide (archived = some "true")

/-- The handler `router.get('/')`: filter on the flag, newest first. -/
def listInvoices (s : Store) (archived : Option String) : List Invoice :=
  (s.invoices.filter (fun i => i.isArchived == archivedFilter archived)).mergeSort
    (fun a b => decide (b.createdAt ≤ a.createdAt))

/-- The `for` loop of `router.post('/')`: one `InvoiceLine` saved per item, the running
`total` increased by its `lineTotal`. -/
def saveLineItems (invoiceId : ObjectId) :
    List LineItemInput → Store → Double → Store × Double
  | [], s, total => (s, total)
  | item :: rest, s, total =>
    let lineItem : InvoiceLine :=
      { id := s.nextId, invoiceId := invoiceId, description := item.description,
        quantity := item.quantity, unitPrice := item.unitPrice,
        lineTotal := Double.mul item.quantity item.unitPrice }
    saveLineItems invoiceId rest
      { s with lineItems := s.lineItems ++ [lineItem], nextId := s.nextId + 1 }
      (Double.add total lineItem.lineTotal)

/-- The handler `router.post('/')`; it answers 201 with the invoice document. -/
def createInvoice (s : Store) (body : CreateBody) (now : Nat) : Invoice × Store :=
  let invoice : Invoice :=
    { id := s.nextId, invoiceNumber := body.invoiceNumber, customerName := body.customerName,
      issueDate := body.issueDate, dueDate := body.dueDate,
      status := Invoice.defaultStatus, total := 0, amountPaid := 0, balanceDue := 0,
      isArchived := Invoice.defaultIsArchived, createdAt := now }
  let s1 : Store := ({ s with nextId := s.nextId + 1 }).insertInvoice invoice
  match body.lineItems with
  | none => (invoice, s1)
  | some lineItems =>
    if lineItems.length > 0 then
      let r := saveLineItems invoice.id lineItems s1 0
      let invoice1 := { invoice with total := r.2, balanceDue := r.2 }
      (invoice1, r.1.updateInvoice invoice1)
    else (invoice, s1)

/-- A request that changes the store. -/
inductive Request where
  | createInvoice (body : CreateBody) (now : Nat)
  | addPayment (id : ObjectId) (body : PaymentBody) (now : Nat)
  | archiveInvoice (id : ObjectId)
  | restoreInvoice (id : ObjectId)
  deriving DecidableEq, Repr

/-- The store after one request, whether it was accepted or rejected. -/
def handle (s : Store) : Request → Store
  | .createInvoice body now => (createInvoice s body now).2
  | .addPayment id body now => (addPayment s id body now).2
  | .archiveInvoice id => (archiveInvoice s id).2
  | .restoreInvoice id => (restoreInvoice s id).2

/-- The store after a finite sequence of requests. -/
def run (s : Store) (rs : List Request) : Store :=
  rs.foldl handle s



/-- The binary64 running sum `0 + x1 + x2 + ...`, taken left to right as the loop of
`router.post('/')` does. -/
def floatSum (xs : List Double) : Double := xs.foldl Double.add 0

/-- The exact sum of `quantity * unitPrice` over the supplied line items; a product of
two numbers counts units of `2^-2148`. -/
def lineItemsExactTotal (items : List LineItemInput) : Int :=
  (items.map (fun i => i.quantity * i.unitPrice)).sum

/-- Line items whose quantities and unit prices are non-negative integers and whose
exact total is below `2^53`. -/
def SafeLineItems (items : List LineItemInput) : Prop :=
  (∀ i ∈ items, i.quantity.IsInteger ∧ 0 ≤ i.quantity ∧ i.unitPrice.IsInteger ∧ 0 ≤ i.unitPrice)
    ∧ lineItemsExactTotal items < 2 ^ 53 * (Double.unit : Int) * (Double.unit : Int)

/-- A request whose numbers are integers: safe line items for `createInvoice`, an
integer amount, if any, for `addPayment`. -/
def Request.WholeAmounts : Request → Prop
  | .createInvoice body _ => SafeLineItems (body.lineItems.getD [])
  | .addPayment _ body _ =>
    match body.amount with
    | none => True
    | some a => a.IsInteger
  | .archiveInvoice _ => True
  | .restoreInvoice _ => True

instance (x : Double) : Decidable x.IsInteger :=
  inferInstanceAs (Decidable ((Double.unit : Int) ∣ x))

instance (x : Double) : Decidable x.BelowSafeLimit :=
  inferInstanceAs (Decidable (x < 2 ^ 53 * (Double.unit : Int)))

instance (items : List LineItemInput) : Decidable (SafeLineItems items) := by
  unfold SafeLineItems
  infer_instance

instance (r : Request) : Decidable r.WholeAmounts := by
  cases r with
  | createInvoice body now => exact inferInstanceAs (Decidable (SafeLineItems _))
  | addPayment id body now =>
    obtain ⟨amount, paymentDate⟩ := body
    cases amount with
    | none => exact isTrue trivial
    | some a => exact inferInstanceAs (Decidable a.IsInteger)
  | archiveInvoice id => exact isTrue trivial
  | restoreInvoice id => exact isTrue trivial

/-- The stored balance due is the binary64 difference `total - amountPaid`. -/
def Invoice.BalanceDerived (inv : Invoice) : Prop :=
  inv.balanceDue = Double.sub inv.total inv.amountPaid

/-- A ledger in whole numbers: `total` and `amountPaid` are integers with
`0 <= amountPaid <= total < 2^53`, and the balance due is exactly their difference. -/
def Invoice.WholeLedger (inv : Invoice) : Prop :=
  inv.total.IsInteger ∧ inv.amountPaid.IsInteger ∧ 0 ≤ inv.amountPaid
    ∧ inv.amountPaid ≤ inv.total ∧ inv.total.BelowSafeLimit
    ∧ inv.balanceDue = inv.total - inv.amountPaid

/-! ## Sample data -/

/-- A request body with the line items (qty 2, price 10) and (qty 1, price 5). -/
def sampleBody : CreateBody :=
  ⟨"INV-1", "Ann", "2024-01-01", "2024-02-01",
    some [⟨"repair", Double.ofInt 2, Double.ofInt 10⟩, ⟨"part", Double.ofInt 1, Double.ofInt 5⟩]⟩

/-- A request body with one line item of 100. -/
def hundredBody : CreateBody :=
  ⟨"INV-2", "Bob", "2024-01-01", "2024-02-01", some [⟨"service", Double.ofInt 1, Double.ofInt 100⟩]⟩

/-- A request body with one line item of 0.11. -/
def centsBody : CreateBody :=
  ⟨"INV-4", "Dee", "2024-01-01", "2024-02-01",
    some [⟨"fee", Double.ofInt 1, Double.ofQuotient 11 100⟩]⟩

/-- A request body with the line item 94906267 x 94906267, whose exact product
9007199515875289 needs 54 bits. -/
def squareBody : CreateBody :=
  ⟨"INV-5", "Eve", "2024-01-01", "2024-02-01",
    some [⟨"bulk", Double.ofInt 94906267, Double.ofInt 94906267⟩]⟩

/-- A request body with the line items (qty 1, price 2^53) and (qty 1, price 1). -/
def largeBody : CreateBody :=
  ⟨"INV-6", "Fay", "2024-01-01", "2024-02-01",
    some [⟨"plant", Double.ofInt 1, Double.ofInt (2 ^ 53)⟩, ⟨"bolt", Double.ofInt 1, Double.ofInt 1⟩]⟩

/-- The invoice created from `sampleBody` in the empty store at time 7. -/
def sampleInvoice : Invoice :=
  ⟨0, "INV-1", "Ann", "2024-01-01", "2024-02-01", "UNPAID", Double.ofInt 25, 0, Double.ofInt 25,
    false, 7⟩

/-- The store after creating the sample invoice. -/
def sampleStore : Store := run Store.empty [.createInvoice sampleBody 7]

/-- The store after creating the sample invoice and archiving it. -/
def archivedStore : Store := run Store.empty [.createInvoice sampleBody 7, .archiveInvoice 0]

/-- The store after two invoices were created and the first was archived. -/
def mixedStore : Store :=
  run Store.empty [.createInvoice sampleBody 7, .createInvoice hundredBody 8, .archiveInvoice 0]

/-- A run with an accepted payment, an archive, and a rejected overpayment. -/
def sampleRequests : List Request :=
  [.createInvoice sampleBody 7, .addPayment 0 ⟨some (Double.ofInt 10), none⟩ 9, .archiveInvoice 0,
    .addPayment 0 ⟨some (Double.ofInt 100), none⟩ 11]

/-- The sample invoice after `sampleRequests`. -/
def partPaidInvoice : Invoice :=
  ⟨0, "INV-1", "Ann", "2024-01-01", "2024-02-01", "UNPAID", Double.ofInt 25, Double.ofInt 10,
    Double.ofInt 15, true, 7⟩

/-- An invoice of 0.11 on which 0.04 is paid: the balance due is 0.07. -/
def centsRequests : List Request :=
  [.createInvoice centsBody 7, .addPayment 0 ⟨some (Double.ofQuotient 4 100), none⟩ 9]

/-- The invoice of `centsRequests`: total 0.11, paid 0.04, balance due 0.07. -/
def centsInvoice : Invoice :=
  ⟨0, "INV-4", "Dee", "2024-01-01", "2024-02-01", "UNPAID", Double.ofQuotient 11 100,
    Double.ofQuotient 4 100, Double.ofQuotient 7 100, false, 7⟩

/-- The run `centsRequests` followed by a payment of the whole balance, 0.07. -/
def driftRequests : List Request :=
  centsRequests ++ [.addPayment 0 ⟨some (Double.ofQuotient 7 100), none⟩ 11]

/-- The invoice after `driftRequests`: paid 0.11000000000000001, balance due `-2^-56`. -/
def driftInvoice : Invoice :=
  ⟨0, "INV-4", "Dee", "2024-01-01", "2024-02-01", "UNPAID", Double.ofQuotient 11 100,
    Double.ofQuotient 11000000000000001 100000000000000000, -Double.ofQuotient 1 (2 ^ 56), false, 7⟩

/-! ## Rounding: the facts the ledger needs -/

theorem bitLengthAux_spec (fuel : Nat) : ∀ n, n ≤ fuel →
    n < 2 ^ bitLengthAux fuel n ∧ ∀ k, n < 2 ^ k → bitLengthAux fuel n ≤ k := by
  induction fuel with
  | zero =>
    intro n hn
    have h0 : n = 0 := by omega
    subst h0
    exact ⟨by simp [bitLengthAux], fun k _ => by simp [bitLengthAux]⟩
  | succ fuel ih =>
    intro n hn
    unfold bitLengthAux
    by_cases h0 : n = 0
    · subst h0
      exact ⟨by simp, fun k _ => by simp⟩
    · rw [if_neg h0]
      by_cases h64 : n < 2 ^ 64
      · rw [if_pos h64]
        obtain ⟨h1, h2⟩ := ih (n / 2) (by omega)
        constructor
        · rw [pow_succ]
          omega
        · intro k hk
          cases k with
          | zero => simp at hk; exact absurd hk h0
          | succ k =>
            rw [pow_succ] at hk
            have := h2 k (by omega)
            omega
      · rw [if_neg h64]
        have hpos : 0 < n := by omega
        have hdiv : n / 2 ^ 64 < n := Nat.div_lt_self hpos (by norm_num)
        obtain ⟨h1, h2⟩ := ih (n / 2 ^ 64) (by omega)
        constructor
        · rw [pow_add]
          exact (Nat.div_lt_iff_lt_mul (by norm_num)).1 h1
        · intro k hk
          have hk64 : 64 ≤ k := by
            by_contra hlt
            have hlt2 : k ≤ 64 := by omega
            have : 2 ^ k ≤ 2 ^ 64 := Nat.pow_le_pow_right (by norm_num) hlt2
            omega
          obtain ⟨j, rfl⟩ : ∃ j, k = j + 64 := ⟨k - 64, by omega⟩
          rw [pow_add] at hk
          have := h2 j ((Nat.div_lt_iff_lt_mul (by norm_num)).2 hk)
          omega

theorem lt_pow_bitLength (n : Nat) : n < 2 ^ bitLength n :=
  (bitLengthAux_spec n n (le_refl n)).1

theorem bitLength_le_of_lt {n k : Nat} (h : n < 2 ^ k) : bitLength n ≤ k :=
  (bitLengthAux_spec n n (le_refl n)).2 k h

theorem roundHalfEven_of_dvd {a b : Nat} (hb : 0 < b) (h : b ∣ a) :
    roundHalfEven a b = a / b := by
  have hr : a % b = 0 := Nat.mod_eq_zero_of_dvd h
  simp [roundHalfEven, hr, hb]

theorem roundHalfEven_le (a b : Nat) : roundHalfEven a b ≤ a / b + 1 := by
  unfold roundHalfEven
  dsimp only
  split
  · omega
  · split
    · omega
    · split <;> omega

theorem roundMagnitude_exact (k e s : Nat) (hk : k < 2 ^ 53) (hs : s ≤ e) :
    roundMagnitude (k * 2 ^ e) s = k * 2 ^ (e - s) := by
  have hlt : k * 2 ^ e < 2 ^ (53 + e) := by
    rw [pow_add]
    exact Nat.mul_lt_mul_of_pos_right hk (by positivity)
  have hbl : bitLength (k * 2 ^ e) ≤ 53 + e := bitLength_le_of_lt hlt
  unfold roundMagnitude
  dsimp only
  generalize hsh : max (bitLength (k * 2 ^ e) - 53) s = sh
  have hsh1 : sh ≤ e := by rw [← hsh]; exact max_le (by omega) hs
  have hsh2 : s ≤ sh := by rw [← hsh]; exact le_max_right _ _
  have he : 2 ^ e = 2 ^ (e - sh) * 2 ^ sh := by rw [← pow_add]; congr 1; omega
  have hdvd : 2 ^ sh ∣ k * 2 ^ e := ⟨k * 2 ^ (e - sh), by rw [he]; ring⟩
  rw [roundHalfEven_of_dvd (by positivity) hdvd]
  have hq : k * 2 ^ e / 2 ^ sh = k * 2 ^ (e - sh) := by
    rw [he, ← mul_assoc]
    exact Nat.mul_div_cancel _ (by positivity)
  rw [hq, mul_assoc, ← pow_add]
  congr 2
  omega

theorem roundMagnitude_idem (p s : Nat) :
    roundMagnitude (roundMagnitude p s) 0 = roundMagnitude p s := by
  have hval : roundMagnitude p s
      = roundHalfEven p (2 ^ max (bitLength p - 53) s) * 2 ^ (max (bitLength p - 53) s - s) :=
    rfl
  generalize hsh : max (bitLength p - 53) s = sh at hval
  have hbl : bitLength p ≤ sh + 53 := by
    have : bitLength p - 53 ≤ sh := by rw [← hsh]; exact le_max_left _ _
    omega
  have hp : p < 2 ^ sh * 2 ^ 53 := by
    rw [← pow_add]
    exact lt_of_lt_of_le (lt_pow_bitLength p) (Nat.pow_le_pow_right (by norm_num) hbl)
  have hdiv : p / 2 ^ sh < 2 ^ 53 := by
    rw [Nat.div_lt_iff_lt_mul (by positivity)]
    rw [mul_comm]
    exact hp
  have hq : roundHalfEven p (2 ^ sh) ≤ 2 ^ 53 := by
    have := roundHalfEven_le p (2 ^ sh)
    omega
  rw [hval]
  rcases Nat.lt_or_ge (roundHalfEven p (2 ^ sh)) (2 ^ 53) with hlt | hge
  · have := roundMagnitude_exact (roundHalfEven p (2 ^ sh)) (sh - s) 0 hlt (Nat.zero_le _)
    simpa using this
  · have heq : roundHalfEven p (2 ^ sh) = 2 ^ 53 := le_antisymm hq hge
    rw [heq, ← pow_add]
    have := roundMagnitude_exact 1 (53 + (sh - s)) 0 (by norm_num) (Nat.zero_le _)
    simpa using this

theorem roundSigned_natCast (n s : Nat) :
    roundSigned (n : Int) s = ((roundMagnitude n s : Nat) : Int) := by
  unfold roundSigned
  have h : ¬ ((n : Int) < 0) := by omega
  rw [if_neg h, Int.natAbs_ofNat]

theorem roundMagnitude_zero (s : Nat) : roundMagnitude 0 s = 0 := by
  have := roundMagnitude_exact 0 s s (by norm_num) (le_refl s)
  simpa using this

theorem roundSigned_idem (x : Int) (s : Nat) :
    roundSigned (roundSigned x s) 0 = roundSigned x s := by
  by_cases hx : x < 0
  · have e : roundSigned x s = -((roundMagnitude x.natAbs s : Nat) : Int) := by
      unfold roundSigned; rw [if_pos hx]
    rw [e]
    generalize hm : roundMagnitude x.natAbs s = m
    have hidem : roundMagnitude m 0 = m := by rw [← hm]; exact roundMagnitude_idem _ _
    cases m with
    | zero =>
      have hz : (-((0 : Nat) : Int)) = ((0 : Nat) : Int) := by simp
      rw [hz, roundSigned_natCast, hidem]
    | succ m =>
      unfold roundSigned
      have hneg : -(((m + 1 : Nat)) : Int) < 0 := by omega
      rw [if_pos hneg]
      have hab : (-(((m + 1 : Nat)) : Int)).natAbs = m + 1 := by
        rw [Int.natAbs_neg, Int.natAbs_ofNat]
      rw [hab, hidem]
  · have e : roundSigned x s = ((roundMagnitude x.natAbs s : Nat) : Int) := by
      unfold roundSigned; rw [if_neg hx]
    rw [e, roundSigned_natCast, roundMagnitude_idem]

theorem roundSigned_pos {x : Int} {s : Nat} (h : 0 < roundSigned x s) : 0 < x := by
  by_contra hx
  unfold roundSigned at h
  by_cases hneg : x < 0
  · rw [if_pos hneg] at h
    have := Int.ofNat_nonneg (roundMagnitude x.natAbs s)
    linarith
  · have h0 : x = 0 := by omega
    subst h0
    rw [if_neg hneg, Int.natAbs_zero, roundMagnitude_zero] at h
    exact absurd h (by decide)

theorem roundSigned_exact_aux (U : Nat) (hU : U = 2 ^ 1074) {z : Int}
    (hd : (U : Int) ∣ z) (h0 : 0 ≤ z) (hb : z < 2 ^ 53 * (U : Int)) :
    roundSigned z 0 = z := by
  obtain ⟨n, rfl⟩ := Int.eq_ofNat_of_zero_le h0
  obtain ⟨k, rfl⟩ := Int.natCast_dvd_natCast.1 hd
  have hb2 : U * k < 2 ^ 53 * U := by exact_mod_cast hb
  have hk : k < 2 ^ 53 := by
    rw [mul_comm] at hb2
    exact Nat.lt_of_mul_lt_mul_right hb2
  have hexact := roundMagnitude_exact k 1074 0 hk (Nat.zero_le _)
  rw [Nat.sub_zero, ← hU, mul_comm] at hexact
  rw [roundSigned_natCast, hexact]

theorem roundSigned_exact_mul_aux (U : Nat) (hU : U = 2 ^ 1074) {x y : Int}
    (hx : (U : Int) ∣ x) (hy : (U : Int) ∣ y) (h0x : 0 ≤ x) (h0y : 0 ≤ y)
    (hb : x * y < 2 ^ 53 * (U : Int) * (U : Int)) :
    roundSigned (x * y) 1074 * (U : Int) = x * y
      ∧ (U : Int) ∣ roundSigned (x * y) 1074 ∧ 0 ≤ roundSigned (x * y) 1074 := by
  obtain ⟨n, rfl⟩ := Int.eq_ofNat_of_zero_le h0x
  obtain ⟨m, rfl⟩ := Int.eq_ofNat_of_zero_le h0y
  obtain ⟨a, rfl⟩ := Int.natCast_dvd_natCast.1 hx
  obtain ⟨b, rfl⟩ := Int.natCast_dvd_natCast.1 hy
  have hab : a * b < 2 ^ 53 := by
    have hb2 : (U * a) * (U * b) < 2 ^ 53 * U * U := by exact_mod_cast hb
    have e : (U * a) * (U * b) = (a * b) * (U * U) := by ring
    have hb3 : a * b * (U * U) < 2 ^ 53 * (U * U) := by
      rw [← mul_assoc (2 ^ 53) U U, ← e]
      exact hb2
    exact Nat.lt_of_mul_lt_mul_right hb3
  have hUU : 2 ^ (1074 + 1074) = U * U := by rw [pow_add, ← hU]
  have hprod : ((U * a : Nat) : Int) * ((U * b : Nat) : Int)
      = (((a * b) * 2 ^ (1074 + 1074) : Nat) : Int) := by
    rw [hUU]
    push_cast
    ring
  have hexact := roundMagnitude_exact (a * b) (1074 + 1074) 1074 hab (by omega)
  rw [Nat.add_sub_cancel, ← hU] at hexact
  rw [hprod, roundSigned_natCast, hexact]
  refine ⟨?_, ?_, Int.ofNat_nonneg _⟩
  · rw [hUU]
    push_cast
    ring
  · exact Int.natCast_dvd_natCast.2 ⟨a * b, by ring⟩

theorem unit_eq : Double.unit = 2 ^ 1074 := rfl

set_option exponentiation.threshold 5000 in
theorem unit_pos : (0 : Int) < (Double.unit : Int) := by
  have : 0 < Double.unit := by
    rw [unit_eq]
    exact Nat.pow_pos (Nat.succ_pos 1)
  exact_mod_cast this

theorem roundSigned_exact {z : Int} (hd : (Double.unit : Int) ∣ z) (h0 : 0 ≤ z)
    (hb : z < 2 ^ 53 * (Double.unit : Int)) : roundSigned z 0 = z :=
  roundSigned_exact_aux Double.unit unit_eq hd h0 hb

theorem Double.add_exact {x y : Double} (hx : x.IsInteger) (hy : y.IsInteger)
    (h0 : 0 ≤ x + y) (hb : x + y < 2 ^ 53 * (Double.unit : Int)) :
    Double.add x y = x + y :=
  roundSigned_exact (dvd_add hx hy) h0 hb

theorem Double.sub_exact {x y : Double} (hx : x.IsInteger) (hy : y.IsInteger)
    (h0 : 0 ≤ x - y) (hb : x - y < 2 ^ 53 * (Double.unit : Int)) :
    Double.sub x y = x - y :=
  roundSigned_exact (dvd_sub hx hy) h0 hb

theorem Double.mul_exact {x y : Double} (hx : x.IsInteger) (hy : y.IsInteger)
    (h0x : 0 ≤ x) (h0y : 0 ≤ y)
    (hb : x * y < 2 ^ 53 * (Double.unit : Int) * (Double.unit : Int)) :
    Double.mul x y * (Double.unit : Int) = x * y
      ∧ (Double.mul x y).IsInteger ∧ 0 ≤ Double.mul x y :=
  roundSigned_exact_mul_aux Double.unit unit_eq hx hy h0x h0y hb

theorem Double.sub_zero_of_rounded (z : Int) (s : Nat) :
    Double.sub (roundSigned z s) 0 = roundSigned z s := by
  unfold Double.sub
  rw [sub_zero, roundSigned_idem]

/-! ## The store: lookup and replacement -/

theorem find_replace_self (l : List Invoice) (inv old : Invoice)
    (h : l.find? (fun i => decide (i.id = inv.id)) = some old) :
    (l.map (fun i => if i.id = inv.id then inv else i)).find?
      (fun i => decide (i.id = inv.id)) = some inv := by
  induction l with
  | nil => simp at h
  | cons x xs ih =>
    by_cases hx : x.id = inv.id
    · simp [List.find?, hx]
    · simp only [List.find?, hx, decide_False] at h
      simp [List.find?, hx, ih h]

theorem find_replace_other (l : List Invoice) (inv : Invoice) (j : ObjectId)
    (hj : j ≠ inv.id) :
    (l.map (fun i => if i.id = inv.id then inv else i)).find?
      (fun i => decide (i.id = j)) = l.find? (fun i => decide (i.id = j)) := by
  induction l with
  | nil => rfl
  | cons x xs ih =>
    rw [List.map_cons, List.find?_cons, List.find?_cons, ih]
    by_cases hx : x.id = inv.id
    · have hxj : ¬ x.id = j := fun h => hj (h ▸ hx)
      have hij : ¬ inv.id = j := fun h => hj h.symm
      rw [if_pos hx]
      simp only [hxj, hij, decide_False]
    · rw [if_neg hx]

theorem findById_mem {s : Store} {id : ObjectId} {inv : Invoice}
    (h : s.findById id = some inv) : inv ∈ s.invoices :=
  List.mem_of_find?_eq_some h

theorem findById_id {s : Store} {id : ObjectId} {inv : Invoice}
    (h : s.findById id = some inv) : inv.id = id := by
  have := List.find?_some h
  simpa using this

theorem findById_updateInvoice_self {s : Store} {inv old : Invoice}
    (h : s.findById inv.id = some old) :
    (s.updateInvoice inv).findById inv.id = some inv :=
  find_replace_self s.invoices inv old h

theorem findById_updateInvoice_other {s : Store} {inv : Invoice} {j : ObjectId}
    (hj : j ≠ inv.id) : (s.updateInvoice inv).findById j = s.findById j :=
  find_replace_other s.invoices inv j hj

theorem mem_updateInvoice {s : Store} {inv x : Invoice}
    (h : x ∈ (s.updateInvoice inv).invoices) : x = inv ∨ x ∈ s.invoices := by
  simp only [Store.updateInvoice, List.mem_map] at h
  obtain ⟨y, hy, rfl⟩ := h
  by_cases hc : y.id = inv.id
  · simp [hc]
  · simp [hc, hy]

theorem updateInvoice_twice (s : Store) (inv : Invoice) :
    (s.updateInvoice inv).updateInvoice inv = s.updateInvoice inv := by
  simp only [Store.updateInvoice, List.map_map]
  congr 1
  apply List.map_congr_left
  intro y _
  by_cases hc : y.id = inv.id <;> simp [hc]

/-! ## The three guards of the payment route -/

theorem not_nonpositive {a : Double} (hpos : 0 < a) : ¬ (a = 0 ∨ a ≤ 0) := fun h =>
  h.elim (fun e => absurd e (ne_of_gt hpos)) (fun e => absurd hpos (not_lt.2 e))

theorem addPayment_of_nonpositive (s : Store) (id : ObjectId) (a : Double)
    (paymentDate : Option Nat) (now : Nat) (h : a ≤ 0) :
    addPayment s id ⟨some a, paymentDate⟩ now
      = (.badRequest "Amount must be greater than 0" none, s) := by
  simp [addPayment, h]

theorem addPayment_of_unknown (s : Store) (id : ObjectId) (a : Double)
    (paymentDate : Option Nat) (now : Nat) (hpos : 0 < a) (hfind : s.findById id = none) :
    addPayment s id ⟨some a, paymentDate⟩ now = (.notFound "Invoice not found", s) := by
  have h0 : ¬ (a = 0 ∨ a ≤ 0) := not_nonpositive hpos
  simp [addPayment, h0, hfind]

theorem addPayment_of_excess {s : Store} {id : ObjectId} {inv : Invoice} (a : Double)
    (paymentDate : Option Nat) (now : Nat) (hfind : s.findById id = some inv)
    (hpos : 0 < a) (hover : inv.balanceDue < a) :
    addPayment s id ⟨some a, paymentDate⟩ now
      = (.badRequest "Payment amount cannot exceed balance due" (some inv.balanceDue), s) := by
  have h0 : ¬ (a = 0 ∨ a ≤ 0) := not_nonpositive hpos
  have h1 : a > inv.balanceDue := hover
  simp only [addPayment, h0, hfind, if_false, h1, if_true]

/-! ## Rejected payments -/

/-- C4: for every store and every invoice id, known or not, a payment whose amount
is absent or at most 0 is answered 400 "Amount must be greater than 0" and the store
(payments and invoices) is returned unchanged; the answer is never not-found. -/
theorem addPayment_rejects_nonpositive (s : Store) (id : ObjectId) (body : PaymentBody)
    (now : Nat) (h : body.amount = none ∨ ∃ a, body.amount = some a ∧ a ≤ 0) :
    addPayment s id body now = (.badRequest "Amount must be greater than 0" none, s) := by
  rcases h with h | ⟨a, h, ha⟩
  · simp [addPayment, h]
  · simp [addPayment, h, ha]


/-- C5: for every existing invoice and every amount `a > 0` above its balance due,
the payment is answered 400 with the invoice's current balance due, and the store is
returned unchanged: no payment is created, nothing is accepted in part. -/
theorem addPayment_rejects_overpayment (s : Store) (id : ObjectId) (inv : Invoice)
    (a : Double) (paymentDate : Option Nat) (now : Nat)
    (hfind : s.findById id = some inv) (hpos : 0 < a) (hover : inv.balanceDue < a) :
    addPayment s id ⟨some a, paymentDate⟩ now
      = (.badRequest "Payment amount cannot exceed balance due" (some inv.balanceDue), s) := by
  have h0 : ¬ (a = 0 ∨ a ≤ 0) := not_nonpositive hpos
  simp only [addPayment, h0, hfind, if_false]
  simp [hover]

/-! ## Archive and restore -/

theorem archiveInvoice_found {s : Store} {id : ObjectId} {inv : Invoice}
    (h : s.findById id = some inv) :
    archiveInvoice s id = (.ok "Invoice archived successfully" { inv with isArchived := true },
      s.updateInvoice { inv with isArchived := true }) := by
  simp [archiveInvoice, h]

theorem restoreInvoice_found {s : Store} {id : ObjectId} {inv : Invoice}
    (h : s.findById id = some inv) :
    restoreInvoice s id = (.ok "Invoice restored successfully" { inv with isArchived := false },
      s.updateInvoice { inv with isArchived := false }) := by
  simp [restoreInvoice, h]

theorem findById_after_flag {s : Store} {id : ObjectId} {inv : Invoice} (b : Bool)
    (h : s.findById id = some inv) :
    (s.updateInvoice { inv with isArchived := b }).findById id
      = some { inv with isArchived := b } := by
  have hid : inv.id = id := findById_id h
  have h2 : s.findById ({ inv with isArchived := b } : Invoice).id = some inv := by
    simpa [hid] using h
  have := findById_updateInvoice_self h2
  simpa [hid] using this

/-- C7: for every existing invoice, `archiveInvoice` succeeds, and a second
`archiveInvoice` succeeds with the same answer and leaves the same store as the first;
likewise for `restoreInvoice`. -/
theorem archive_restore_idempotent (s : Store) (id : ObjectId) (inv : Invoice)
    (h : s.findById id = some inv) :
    (archiveInvoice s id = (.ok "Invoice archived successfully" { inv with isArchived := true },
        s.updateInvoice { inv with isArchived := true })
      ∧ archiveInvoice (archiveInvoice s id).2 id = archiveInvoice s id)
    ∧ (restoreInvoice s id = (.ok "Invoice restored successfully" { inv with isArchived := false },
        s.updateInvoice { inv with isArchived := false })
      ∧ restoreInvoice (restoreInvoice s id).2 id = restoreInvoice s id) := by
  refine ⟨⟨archiveInvoice_found h, ?_⟩, ⟨restoreInvoice_found h, ?_⟩⟩
  · rw [archiveInvoice_found h]
    rw [archiveInvoice_found (findById_after_flag true h)]
    simp [updateInvoice_twice]
  · rw [restoreInvoice_found h]
    rw [restoreInvoice_found (findById_after_flag false h)]
    simp [updateInvoice_twice]



/-- C8, amended: for every existing invoice, `archiveInvoice` followed by
`restoreInvoice` leaves the invoice stored with `isArchived = false` and every other
field as before; this is the value `isArchived` had before the two calls exactly when
the invoice was not archived before them. -/
theorem archive_then_restore (s : Store) (id : ObjectId) (inv : Invoice)
    (h : s.findById id = some inv) :
    ∃ inv1, (restoreInvoice (archiveInvoice s id).2 id).2.findById id = some inv1
      ∧ inv1 = { inv with isArchived := false }
      ∧ (inv1.isArchived = inv.isArchived ↔ inv.isArchived = false) := by
  refine ⟨{ inv with isArchived := false }, ?_, rfl, ?_⟩
  · rw [archiveInvoice_found h]
    have h1 := findById_after_flag true h
    rw [restoreInvoice_found h1]
    exact findById_after_flag false h1
  · constructor
    · intro e; exact e.symm
    · intro e; exact e.symm


/-! ## Listing -/

/-- C9: with `archived` equal to the string true, `listInvoices` returns exactly the
stored invoices with `isArchived = true`; with any other value, or none, exactly those
with `isArchived = false`; the two listings share no invoice and together hold every
stored invoice once. -/
theorem listInvoices_partition (s : Store) (archived : Option String) :
    (listInvoices s (some "true")).Perm (s.invoices.filter (fun i => i.isArchived))
    ∧ (archived ≠ some "true" →
        (listInvoices s archived).Perm (s.invoices.filter (fun i => !i.isArchived))
        ∧ (listInvoices s (some "true") ++ listInvoices s archived).Perm s.invoices
        ∧ ∀ i, i ∈ listInvoices s (some "true") → i ∉ listInvoices s archived) := by
  have ht : (listInvoices s (some "true")).Perm (s.invoices.filter (fun i => i.isArchived)) := by
    unfold listInvoices
    refine (List.mergeSort_perm _ _).trans ?_
    simp [archivedFilter]
  refine ⟨ht, ?_⟩
  intro hne
  have hf : (listInvoices s archived).Perm (s.invoices.filter (fun i => !i.isArchived)) := by
    unfold listInvoices
    refine (List.mergeSort_perm _ _).trans ?_
    have : archivedFilter archived = false := by simp [archivedFilter, hne]
    rw [this]
    apply List.Perm.of_eq
    apply List.filter_congr
    intro x _
    cases x.isArchived <;> rfl
  refine ⟨hf, ?_, ?_⟩
  · exact (List.Perm.append ht hf).trans (List.filter_append_perm _ _)
  · intro i hi hi2
    have h1 := (ht.mem_iff).1 hi
    have h2 := (hf.mem_iff).1 hi2
    simp only [List.mem_filter] at h1 h2
    simp [h1.2] at h2


/-! ## Accepted payments -/

theorem addPayment_accepted {s : Store} {id : ObjectId} {inv : Invoice} (a : Double)
    (paymentDate : Option Nat) (now : Nat) (hfind : s.findById id = some inv)
    (hpos : 0 < a) (hle : a ≤ inv.balanceDue) :
    addPayment s id ⟨some a, paymentDate⟩ now
      = (.created ⟨s.nextId, id, a, paymentDateOrNow paymentDate now⟩
            (inv.applyPayment a).amountPaid (inv.applyPayment a).balanceDue
            (inv.applyPayment a).status,
          ({ s with
              payments := s.payments ++ [⟨s.nextId, id, a, paymentDateOrNow paymentDate now⟩],
              nextId := s.nextId + 1 } : Store).updateInvoice (inv.applyPayment a)) := by
  have h0 : ¬ (a = 0 ∨ a ≤ 0) := not_nonpositive hpos
  have h1 : ¬ (a > inv.balanceDue) := not_lt.2 hle
  simp only [addPayment, h0, hfind, if_false, h1]

theorem applyPayment_id (inv : Invoice) (a : Double) : (inv.applyPayment a).id = inv.id := by
  unfold Invoice.applyPayment Invoice.recomputeBalanceDue
  dsimp only
  split <;> rfl

theorem applyPayment_isArchived (inv : Invoice) (a : Double) :
    (inv.applyPayment a).isArchived = inv.isArchived := by
  unfold Invoice.applyPayment Invoice.recomputeBalanceDue
  dsimp only
  split <;> rfl

theorem applyPayment_total (inv : Invoice) (a : Double) :
    (inv.applyPayment a).total = inv.total := by
  unfold Invoice.applyPayment Invoice.recomputeBalanceDue
  dsimp only
  split <;> rfl

theorem applyPayment_amountPaid (inv : Invoice) (a : Double) :
    (inv.applyPayment a).amountPaid = Double.add inv.amountPaid a := by
  unfold Invoice.applyPayment Invoice.recomputeBalanceDue
  dsimp only
  split <;> rfl

theorem applyPayment_balanceDue (inv : Invoice) (a : Double) :
    (inv.applyPayment a).balanceDue = Double.sub inv.total (Double.add inv.amountPaid a) := by
  unfold Invoice.applyPayment Invoice.recomputeBalanceDue
  dsimp only
  split <;> rfl

theorem applyPayment_flag (inv : Invoice) (a : Double) (b : Bool) :
    ({ inv with isArchived := b } : Invoice).applyPayment a
      = { inv.applyPayment a with isArchived := b } := by
  unfold Invoice.applyPayment Invoice.recomputeBalanceDue
  dsimp only
  split <;> rfl

theorem findById_after_payment {s : Store} {id : ObjectId} {inv : Invoice} (a : Double)
    (ps : List Payment) (n : ObjectId) (hfind : s.findById id = some inv) :
    (({ s with payments := ps, nextId := n } : Store).updateInvoice
        (inv.applyPayment a)).findById id = some (inv.applyPayment a) := by
  have hid : inv.id = id := findById_id hfind
  have h2 : ({ s with payments := ps, nextId := n } : Store).findById (inv.applyPayment a).id
      = some inv := by
    rw [applyPayment_id, hid]; exact hfind
  have := findById_updateInvoice_self h2
  rwa [applyPayment_id, hid] at this

theorem addPayment_flag_blind {s : Store} {id : ObjectId} {inv : Invoice}
    (body : PaymentBody) (now : Nat) (b : Bool) (hfind : s.findById id = some inv) :
    (addPayment (s.updateInvoice { inv with isArchived := b }) id body now).1
        = (addPayment s id body now).1
      ∧ ∃ inv1, (addPayment s id body now).2.findById id = some inv1
          ∧ inv1.isArchived = inv.isArchived
          ∧ (addPayment (s.updateInvoice { inv with isArchived := b }) id body now).2.findById id
              = some { inv1 with isArchived := b } := by
  have hb := findById_after_flag b hfind
  obtain ⟨amount, paymentDate⟩ := body
  cases amount with
  | none =>
    refine ⟨by simp [addPayment], inv, ?_, rfl, ?_⟩
    · simpa [addPayment] using hfind
    · simpa [addPayment] using hb
  | some a =>
    by_cases h0 : a ≤ 0
    · have e1 := addPayment_of_nonpositive s id a paymentDate now h0
      have e2 := addPayment_of_nonpositive (s.updateInvoice { inv with isArchived := b })
        id a paymentDate now h0
      rw [e1, e2]
      exact ⟨rfl, inv, hfind, rfl, hb⟩
    · by_cases h1 : inv.balanceDue < a
      · have e1 := addPayment_of_excess a paymentDate now hfind (not_le.1 h0) h1
        have e2 := addPayment_of_excess a paymentDate now hb (not_le.1 h0)
          (show ({ inv with isArchived := b } : Invoice).balanceDue < a from h1)
        rw [e1, e2]
        exact ⟨rfl, inv, hfind, rfl, hb⟩
      · have e1 := addPayment_accepted a paymentDate now hfind (not_le.1 h0) (not_lt.1 h1)
        have e2 := addPayment_accepted a paymentDate now hb (not_le.1 h0)
          (show a ≤ ({ inv with isArchived := b } : Invoice).balanceDue from not_lt.1 h1)
        rw [e1, e2]
        refine ⟨?_, inv.applyPayment a, ?_, applyPayment_isArchived inv a, ?_⟩
        · simp only [applyPayment_flag]
          rfl
        · exact findById_after_payment a _ _ hfind
        · have := findById_after_payment a
            ((s.updateInvoice { inv with isArchived := b }).payments ++
              [⟨(s.updateInvoice { inv with isArchived := b }).nextId, id, a,
                paymentDateOrNow paymentDate now⟩])
            ((s.updateInvoice { inv with isArchived := b }).nextId + 1) hb
          rw [applyPayment_flag] at this
          simpa [applyPayment_flag] using this

/-- C10: the archive flag and the payment state do not touch each other.  For an
existing invoice, `archiveInvoice` and `restoreInvoice` store the same document with
only `isArchived` changed (total, amountPaid, balanceDue and status as before), and
leave every other invoice, the line items and the payments as they were; for an unknown
id both answer not-found and return the store unchanged.  For every payment body,
`addPayment` gives the same answer whether the invoice is archived or not, leaves
`isArchived` as it was, and stores the same amountPaid, balanceDue and status. -/
theorem archive_flag_independent (s : Store) (id : ObjectId) :
    (∀ inv, s.findById id = some inv →
      ((archiveInvoice s id).2.findById id = some { inv with isArchived := true }
        ∧ (restoreInvoice s id).2.findById id = some { inv with isArchived := false })
      ∧ (∀ j, j ≠ id → (archiveInvoice s id).2.findById j = s.findById j
          ∧ (restoreInvoice s id).2.findById j = s.findById j)
      ∧ ((archiveInvoice s id).2.payments = s.payments
          ∧ (archiveInvoice s id).2.lineItems = s.lineItems
          ∧ (restoreInvoice s id).2.payments = s.payments
          ∧ (restoreInvoice s id).2.lineItems = s.lineItems))
    ∧ (s.findById id = none →
        archiveInvoice s id = (.notFound "Invoice not found", s)
        ∧ restoreInvoice s id = (.notFound "Invoice not found", s))
    ∧ (∀ inv body now b, s.findById id = some inv →
        (addPayment (s.updateInvoice { inv with isArchived := b }) id body now).1
            = (addPayment s id body now).1
        ∧ ∃ inv1, (addPayment s id body now).2.findById id = some inv1
            ∧ inv1.isArchived = inv.isArchived
            ∧ (addPayment (s.updateInvoice { inv with isArchived := b }) id body
                now).2.findById id = some { inv1 with isArchived := b }) := by
  refine ⟨?_, ?_, ?_⟩
  · intro inv h
    have hid : inv.id = id := findById_id h
    rw [archiveInvoice_found h, restoreInvoice_found h]
    refine ⟨⟨findById_after_flag true h, findById_after_flag false h⟩, ?_, ?_⟩
    · intro j hj
      constructor
      · exact findById_updateInvoice_other (by simpa [hid] using hj)
      · exact findById_updateInvoice_other (by simpa [hid] using hj)
    · exact ⟨rfl, rfl, rfl, rfl⟩
  · intro h
    simp [archiveInvoice, restoreInvoice, h]
  · intro inv body now b h
    exact addPayment_flag_blind body now b h


/-! ## Invoice creation -/

theorem lineItemsExactTotal_cons (item : LineItemInput) (rest : List LineItemInput) :
    lineItemsExactTotal (item :: rest)
      = item.quantity * item.unitPrice + lineItemsExactTotal rest := by
  simp [lineItemsExactTotal]

theorem lineItemsExactTotal_nonneg (items : List LineItemInput)
    (h : ∀ i ∈ items, i.quantity.IsInteger ∧ 0 ≤ i.quantity ∧ i.unitPrice.IsInteger
      ∧ 0 ≤ i.unitPrice) : 0 ≤ lineItemsExactTotal items := by
  induction items with
  | nil => simp [lineItemsExactTotal]
  | cons item rest ih =>
    rw [lineItemsExactTotal_cons]
    have hi := h item (List.mem_cons_self _ _)
    have hr := ih (fun i hi => h i (List.mem_cons_of_mem _ hi))
    have hp : (0 : Int) ≤ item.quantity * item.unitPrice := mul_nonneg hi.2.1 hi.2.2.2
    exact add_nonneg hp hr

theorem lt_of_mul_unit_lt {x : Int} {B : Int}
    (h : x * (Double.unit : Int) < B * (Double.unit : Int)) : x < B :=
  lt_of_mul_lt_mul_right h (le_of_lt unit_pos)

theorem saveLineItems_spec (iid : ObjectId) (items : List LineItemInput) :
    ∀ (s : Store) (t : Double),
    (saveLineItems iid items s t).1.invoices = s.invoices
    ∧ (saveLineItems iid items s t).1.payments = s.payments
    ∧ ∃ new, (saveLineItems iid items s t).1.lineItems = s.lineItems ++ new
        ∧ new.map (fun l => (l.description, l.quantity, l.unitPrice))
            = items.map (fun i => (i.description, i.quantity, i.unitPrice))
        ∧ (∀ l ∈ new, l.invoiceId = iid ∧ l.lineTotal = Double.mul l.quantity l.unitPrice)
        ∧ (saveLineItems iid items s t).2 = (new.map InvoiceLine.lineTotal).foldl Double.add t
        ∧ (t.IsInteger → 0 ≤ t →
            (∀ i ∈ items, i.quantity.IsInteger ∧ 0 ≤ i.quantity ∧ i.unitPrice.IsInteger
              ∧ 0 ≤ i.unitPrice) →
            t * (Double.unit : Int) + lineItemsExactTotal items
              < 2 ^ 53 * (Double.unit : Int) * (Double.unit : Int) →
            (∀ l ∈ new, l.lineTotal * (Double.unit : Int) = l.quantity * l.unitPrice)
            ∧ (saveLineItems iid items s t).2 = t + (new.map InvoiceLine.lineTotal).sum
            ∧ ((saveLineItems iid items s t).2).IsInteger
            ∧ 0 ≤ (saveLineItems iid items s t).2
            ∧ (saveLineItems iid items s t).2 * (Double.unit : Int)
                = t * (Double.unit : Int) + lineItemsExactTotal items) := by
  induction items with
  | nil =>
    intro s t
    refine ⟨rfl, rfl, [], by simp [saveLineItems], rfl, by simp, rfl, ?_⟩
    intro ht h0 _ _
    refine ⟨by simp, by simp [saveLineItems], ht, h0, by simp [saveLineItems, lineItemsExactTotal]⟩
  | cons item rest ih =>
    intro s t
    simp only [saveLineItems]
    obtain ⟨h1, h2, new, h4, h5, h6, h7, h8⟩ := ih
      { s with
        lineItems := s.lineItems ++ [⟨s.nextId, iid, item.description, item.quantity,
          item.unitPrice, Double.mul item.quantity item.unitPrice⟩],
        nextId := s.nextId + 1 }
      (Double.add t (Double.mul item.quantity item.unitPrice))
    refine ⟨h1, h2, ⟨s.nextId, iid, item.description, item.quantity, item.unitPrice,
      Double.mul item.quantity item.unitPrice⟩ :: new, ?_, ?_, ?_, ?_, ?_⟩
    · rw [h4]; simp
    · simp [h5]
    · intro l hl
      rcases List.mem_cons.1 hl with rfl | hl
      · exact ⟨rfl, rfl⟩
      · exact h6 l hl
    · rw [h7]; rfl
    · intro ht h0 hitems hb
      have hi := hitems item (List.mem_cons_self _ _)
      have hrest : ∀ i ∈ rest, i.quantity.IsInteger ∧ 0 ≤ i.quantity ∧ i.unitPrice.IsInteger
          ∧ 0 ≤ i.unitPrice := fun i hi => hitems i (List.mem_cons_of_mem _ hi)
      have hrest0 := lineItemsExactTotal_nonneg rest hrest
      rw [lineItemsExactTotal_cons] at hb
      have hU := unit_pos
      have htU : (0 : Int) ≤ t * (Double.unit : Int) := mul_nonneg h0 (le_of_lt hU)
      have hprod : item.quantity * item.unitPrice
          < 2 ^ 53 * (Double.unit : Int) * (Double.unit : Int) := by linarith
      obtain ⟨hm1, hm2, hm3⟩ := Double.mul_exact hi.1 hi.2.2.1 hi.2.1 hi.2.2.2 hprod
      have hsum : (t + Double.mul item.quantity item.unitPrice) * (Double.unit : Int)
          < 2 ^ 53 * (Double.unit : Int) * (Double.unit : Int) := by
        rw [add_mul, hm1]; linarith
      have hadd : Double.add t (Double.mul item.quantity item.unitPrice)
          = t + Double.mul item.quantity item.unitPrice :=
        Double.add_exact ht hm2 (add_nonneg h0 hm3) (lt_of_mul_unit_lt hsum)
      have hb2 : Double.add t (Double.mul item.quantity item.unitPrice) * (Double.unit : Int)
          + lineItemsExactTotal rest
          < 2 ^ 53 * (Double.unit : Int) * (Double.unit : Int) := by
        rw [hadd, add_mul, hm1]; linarith
      have ht2 : (Double.add t (Double.mul item.quantity item.unitPrice)).IsInteger := by
        rw [hadd]; exact dvd_add ht hm2
      have h02 : 0 ≤ Double.add t (Double.mul item.quantity item.unitPrice) := by
        rw [hadd]; exact add_nonneg h0 hm3
      obtain ⟨e1, e2, e3, e4, e5⟩ := h8 ht2 h02 hrest hb2
      refine ⟨?_, ?_, e3, e4, ?_⟩
      · intro l hl
        rcases List.mem_cons.1 hl with rfl | hl
        · exact hm1
        · exact e1 l hl
      · rw [e2, hadd]
        simp only [List.map_cons, List.sum_cons]
        ring
      · rw [e5, hadd, add_mul, hm1, lineItemsExactTotal_cons]
        ring

theorem saveLineItems_rounded (iid : ObjectId) (items : List LineItemInput) :
    ∀ (s : Store) (t : Double), (∃ z k, t = roundSigned z k) →
      ∃ z k, (saveLineItems iid items s t).2 = roundSigned z k := by
  induction items with
  | nil => intro s t h; exact h
  | cons item rest ih =>
    intro s t _
    simp only [saveLineItems]
    exact ih _ _ ⟨_, _, rfl⟩

theorem mem_replace_of_mem {l : List Invoice} (old : Invoice) {inv : Invoice} (h : old ∈ l)
    (hid : old.id = inv.id) : inv ∈ l.map (fun i => if i.id = inv.id then inv else i) := by
  refine List.mem_map.2 ⟨old, h, ?_⟩
  simp [hid]

/-- C6, amended: for every list of line items given to `createInvoice`, one line item
is saved per input, in order, linked to the new invoice, with `lineTotal` the binary64
product `quantity * unitPrice`; the returned invoice, which is the stored one, has
`total` equal to the binary64 running sum of those line totals, `balanceDue = total` and
`amountPaid = 0`; with an empty or absent list `total` and `balanceDue` are 0.  When
the quantities and unit prices are non-negative integers and their exact total is below
`2^53`, every `lineTotal` is exactly `quantity * unitPrice` and `total` is exactly the
sum of the line totals. -/
theorem createInvoice_totals (s : Store) (body : CreateBody) (now : Nat) :
    (∃ new, (createInvoice s body now).2.lineItems = s.lineItems ++ new
        ∧ new.map (fun l => (l.description, l.quantity, l.unitPrice))
            = (body.lineItems.getD []).map (fun i => (i.description, i.quantity, i.unitPrice))
        ∧ (∀ l ∈ new, l.invoiceId = (createInvoice s body now).1.id
            ∧ l.lineTotal = Double.mul l.quantity l.unitPrice)
        ∧ (createInvoice s body now).1.total = floatSum (new.map InvoiceLine.lineTotal)
        ∧ (SafeLineItems (body.lineItems.getD []) →
            (∀ l ∈ new, l.lineTotal * (Double.unit : Int) = l.quantity * l.unitPrice)
            ∧ (createInvoice s body now).1.total = (new.map InvoiceLine.lineTotal).sum))
    ∧ (createInvoice s body now).1.balanceDue = (createInvoice s body now).1.total
    ∧ (createInvoice s body now).1.amountPaid = 0
    ∧ (createInvoice s body now).1 ∈ (createInvoice s body now).2.invoices
    ∧ ((body.lineItems = none ∨ body.lineItems = some []) →
        (createInvoice s body now).1.total = 0 ∧ (createInvoice s body now).1.balanceDue = 0) := by
  obtain ⟨num, cust, issue, due, items⟩ := body
  cases items with
  | none =>
    simp [createInvoice, floatSum, Store.insertInvoice]
  | some items =>
    cases items with
    | nil => simp [createInvoice, floatSum, Store.insertInvoice]
    | cons item rest =>
      have hlen : (item :: rest).length > 0 := by simp
      simp only [createInvoice, hlen, if_true, Option.getD_some]
      obtain ⟨h1, _, new, h4, h5, h6, h7, h8⟩ := saveLineItems_spec s.nextId (item :: rest)
        (({ s with nextId := s.nextId + 1 } : Store).insertInvoice
          ⟨s.nextId, num, cust, issue, due, Invoice.defaultStatus, 0, 0, 0,
            Invoice.defaultIsArchived, now⟩) 0
      refine ⟨⟨new, ?_, h5, h6, h7, ?_⟩, trivial, trivial, ?_, ?_⟩
      · simpa [Store.updateInvoice, Store.insertInvoice] using h4
      · intro hsafe
        have hb : (0 : Int) * (Double.unit : Int) + lineItemsExactTotal (item :: rest)
            < 2 ^ 53 * (Double.unit : Int) * (Double.unit : Int) := by
          rw [zero_mul, zero_add]; exact hsafe.2
        obtain ⟨e1, e2, _, _, _⟩ := h8 (dvd_zero _) (le_refl 0) hsafe.1 hb
        exact ⟨e1, by rw [e2, zero_add]⟩
      · simp only [Store.updateInvoice, h1]
        refine mem_replace_of_mem ⟨s.nextId, num, cust, issue, due,
          Invoice.defaultStatus, 0, 0, 0, Invoice.defaultIsArchived, now⟩ ?_ rfl
        simp [Store.insertInvoice]
      · intro h
        simp at h


/-! ## The ledger over every reachable store -/

theorem addPayment_store_cases (s : Store) (id : ObjectId) (body : PaymentBody) (now : Nat) :
    (addPayment s id body now).2 = s
    ∨ ∃ inv a ps n, body.amount = some a ∧ s.findById id = some inv ∧ 0 < a
        ∧ a ≤ inv.balanceDue
        ∧ (addPayment s id body now).2
            = ({ s with payments := ps, nextId := n } : Store).updateInvoice
                (inv.applyPayment a) := by
  obtain ⟨amount, paymentDate⟩ := body
  cases amount with
  | none => left; simp [addPayment]
  | some a =>
    by_cases h0 : a ≤ 0
    · left
      rw [addPayment_of_nonpositive s id a paymentDate now h0]
    · cases hfind : s.findById id with
      | none =>
        left
        rw [addPayment_of_unknown s id a paymentDate now (not_le.1 h0) hfind]
      | some inv =>
        by_cases h1 : inv.balanceDue < a
        · left
          rw [addPayment_of_excess a paymentDate now hfind (not_le.1 h0) h1]
        · right
          exact ⟨inv, a, _, _, rfl, rfl, not_le.1 h0, not_lt.1 h1,
            by rw [addPayment_accepted a paymentDate now hfind (not_le.1 h0) (not_lt.1 h1)]⟩

theorem roundSigned_zero (s : Nat) : roundSigned 0 s = 0 := by
  have := roundSigned_natCast 0 s
  rw [roundMagnitude_zero] at this
  exact this

theorem derived_applyPayment (inv : Invoice) (a : Double) :
    (inv.applyPayment a).BalanceDerived := by
  unfold Invoice.BalanceDerived
  rw [applyPayment_balanceDue, applyPayment_total, applyPayment_amountPaid]

theorem whole_applyPayment {inv : Invoice} {a : Double} (h : inv.WholeLedger)
    (ha : a.IsInteger) (hpos : 0 < a) (hle : a ≤ inv.balanceDue) :
    (inv.applyPayment a).WholeLedger := by
  obtain ⟨hT, hP, hP0, _, hB, hbal⟩ := h
  have hB2 : inv.total < 2 ^ 53 * (Double.unit : Int) := hB
  have hle2 : a ≤ inv.total - inv.amountPaid := hbal ▸ hle
  have hadd : Double.add inv.amountPaid a = inv.amountPaid + a :=
    Double.add_exact hP ha (by linarith) (by linarith)
  have hsub : Double.sub inv.total (inv.amountPaid + a) = inv.total - (inv.amountPaid + a) :=
    Double.sub_exact hT (dvd_add hP ha) (by linarith) (by linarith)
  unfold Invoice.WholeLedger
  rw [applyPayment_total, applyPayment_amountPaid, applyPayment_balanceDue, hadd, hsub]
  exact ⟨hT, dvd_add hP ha, by linarith, by linarith, hB, rfl⟩

theorem whole_new (id : ObjectId) (n c i d : String) (now : Nat) (t : Double)
    (ht : t.IsInteger) (h0 : 0 ≤ t) (hb : t.BelowSafeLimit) :
    (⟨id, n, c, i, d, Invoice.defaultStatus, t, 0, t, Invoice.defaultIsArchived, now⟩ :
      Invoice).WholeLedger :=
  ⟨ht, dvd_zero _, le_refl 0, h0, hb, (sub_zero t).symm⟩

theorem zero_belowSafeLimit : (0 : Double).BelowSafeLimit := by
  unfold Double.BelowSafeLimit
  have := unit_pos
  positivity

theorem handle_derived (s : Store) (r : Request)
    (h : ∀ i ∈ s.invoices, i.BalanceDerived) : ∀ i ∈ (handle s r).invoices, i.BalanceDerived := by
  cases r with
  | createInvoice body now =>
    obtain ⟨num, cust, issue, due, items⟩ := body
    have hnew0 : (⟨s.nextId, num, cust, issue, due, Invoice.defaultStatus, 0, 0, 0,
        Invoice.defaultIsArchived, now⟩ : Invoice).BalanceDerived := by
      unfold Invoice.BalanceDerived Double.sub
      rw [sub_zero, roundSigned_zero]
    have hbase : ∀ i ∈ s.invoices ++
        [(⟨s.nextId, num, cust, issue, due, Invoice.defaultStatus, 0, 0, 0,
          Invoice.defaultIsArchived, now⟩ : Invoice)], i.BalanceDerived := by
      intro i hi
      rcases List.mem_append.1 hi with hi | hi
      · exact h i hi
      · rw [List.mem_singleton.1 hi]; exact hnew0
    cases items with
    | none => simpa [handle, createInvoice, Store.insertInvoice] using hbase
    | some items =>
      cases items with
      | nil => simpa [handle, createInvoice, Store.insertInvoice] using hbase
      | cons item rest =>
        have hlen : (item :: rest).length > 0 := by simp
        simp only [handle, createInvoice, hlen, if_true]
        obtain ⟨h1, _, _⟩ := saveLineItems_spec s.nextId (item :: rest)
          (({ s with nextId := s.nextId + 1 } : Store).insertInvoice
            ⟨s.nextId, num, cust, issue, due, Invoice.defaultStatus, 0, 0, 0,
              Invoice.defaultIsArchived, now⟩) 0
        obtain ⟨z, k, hz⟩ := saveLineItems_rounded s.nextId (item :: rest)
          (({ s with nextId := s.nextId + 1 } : Store).insertInvoice
            ⟨s.nextId, num, cust, issue, due, Invoice.defaultStatus, 0, 0, 0,
              Invoice.defaultIsArchived, now⟩) 0 ⟨0, 0, (roundSigned_zero 0).symm⟩
        intro i hi
        rcases mem_updateInvoice hi with rfl | hi
        · unfold Invoice.BalanceDerived
          dsimp only
          rw [hz, Double.sub_zero_of_rounded]
        · rw [h1] at hi
          exact hbase i hi
  | addPayment id body now =>
    simp only [handle]
    rcases addPayment_store_cases s id body now with e | ⟨inv, a, ps, n, _, _, _, _, e⟩
    · rw [e]; exact h
    · rw [e]
      intro i hi
      rcases mem_updateInvoice hi with rfl | hi
      · exact derived_applyPayment inv a
      · exact h i hi
  | archiveInvoice id =>
    simp only [handle]
    cases hfind : s.findById id with
    | none => simpa [archiveInvoice, hfind] using h
    | some inv =>
      rw [archiveInvoice_found hfind]
      intro i hi
      rcases mem_updateInvoice hi with rfl | hi
      · exact h inv (findById_mem hfind)
      · exact h i hi
  | restoreInvoice id =>
    simp only [handle]
    cases hfind : s.findById id with
    | none => simpa [restoreInvoice, hfind] using h
    | some inv =>
      rw [restoreInvoice_found hfind]
      intro i hi
      rcases mem_updateInvoice hi with rfl | hi
      · exact h inv (findById_mem hfind)
      · exact h i hi

theorem handle_whole (s : Store) (r : Request) (hr : r.WholeAmounts)
    (h : ∀ i ∈ s.invoices, i.WholeLedger) : ∀ i ∈ (handle s r).invoices, i.WholeLedger := by
  cases r with
  | createInvoice body now =>
    obtain ⟨num, cust, issue, due, items⟩ := body
    have hnew0 := whole_new s.nextId num cust issue due now 0 (dvd_zero _) (le_refl 0)
      zero_belowSafeLimit
    have hbase : ∀ i ∈ s.invoices ++
        [(⟨s.nextId, num, cust, issue, due, Invoice.defaultStatus, 0, 0, 0,
          Invoice.defaultIsArchived, now⟩ : Invoice)], i.WholeLedger := by
      intro i hi
      rcases List.mem_append.1 hi with hi | hi
      · exact h i hi
      · rw [List.mem_singleton.1 hi]; exact hnew0
    cases items with
    | none => simpa [handle, createInvoice, Store.insertInvoice] using hbase
    | some items =>
      cases items with
      | nil => simpa [handle, createInvoice, Store.insertInvoice] using hbase
      | cons item rest =>
        have hlen : (item :: rest).length > 0 := by simp
        have hsafe : SafeLineItems (item :: rest) := hr
        simp only [handle, createInvoice, hlen, if_true]
        obtain ⟨h1, _, new, _, _, _, _, h8⟩ := saveLineItems_spec s.nextId (item :: rest)
          (({ s with nextId := s.nextId + 1 } : Store).insertInvoice
            ⟨s.nextId, num, cust, issue, due, Invoice.defaultStatus, 0, 0, 0,
              Invoice.defaultIsArchived, now⟩) 0
        have hb : (0 : Int) * (Double.unit : Int) + lineItemsExactTotal (item :: rest)
            < 2 ^ 53 * (Double.unit : Int) * (Double.unit : Int) := by
          rw [zero_mul, zero_add]; exact hsafe.2
        obtain ⟨_, _, e3, e4, e5⟩ := h8 (dvd_zero _) (le_refl 0) hsafe.1 hb
        intro i hi
        rcases mem_updateInvoice hi with rfl | hi
        · apply whole_new _ _ _ _ _ _ _ e3 e4
          unfold Double.BelowSafeLimit
          apply lt_of_mul_unit_lt
          rw [e5, zero_mul, zero_add]
          exact hsafe.2
        · rw [h1] at hi
          exact hbase i hi
  | addPayment id body now =>
    simp only [handle]
    rcases addPayment_store_cases s id body now with e | ⟨inv, a, ps, n, hbody, hfind, hpos, hle, e⟩
    · rw [e]; exact h
    · rw [e]
      intro i hi
      rcases mem_updateInvoice hi with rfl | hi
      · have ha : a.IsInteger := by
          simp only [Request.WholeAmounts, hbody] at hr
          exact hr
        exact whole_applyPayment (h inv (findById_mem hfind)) ha hpos hle
      · exact h i hi
  | archiveInvoice id =>
    simp only [handle]
    cases hfind : s.findById id with
    | none => simpa [archiveInvoice, hfind] using h
    | some inv =>
      rw [archiveInvoice_found hfind]
      intro i hi
      rcases mem_updateInvoice hi with rfl | hi
      · exact h inv (findById_mem hfind)
      · exact h i hi
  | restoreInvoice id =>
    simp only [handle]
    cases hfind : s.findById id with
    | none => simpa [restoreInvoice, hfind] using h
    | some inv =>
      rw [restoreInvoice_found hfind]
      intro i hi
      rcases mem_updateInvoice hi with rfl | hi
      · exact h inv (findById_mem hfind)
      · exact h i hi

theorem run_derived (rs : List Request) : ∀ (s : Store),
    (∀ i ∈ s.invoices, i.BalanceDerived) → ∀ i ∈ (run s rs).invoices, i.BalanceDerived := by
  induction rs with
  | nil => intro s h; exact h
  | cons r rest ih => intro s h; exact ih (handle s r) (handle_derived s r h)

theorem run_whole (rs : List Request) : ∀ (s : Store), (∀ r ∈ rs, r.WholeAmounts) →
    (∀ i ∈ s.invoices, i.WholeLedger) → ∀ i ∈ (run s rs).invoices, i.WholeLedger := by
  induction rs with
  | nil => intro s _ h; exact h
  | cons r rest ih =>
    intro s hr h
    exact ih (handle s r) (fun q hq => hr q (List.mem_cons_of_mem _ hq))
      (handle_whole s r (hr r (List.mem_cons_self _ _)) h)

theorem reachable_derived (rs : List Request) :
    ∀ i ∈ (run Store.empty rs).invoices, i.BalanceDerived :=
  run_derived rs Store.empty (by intro i hi; simp [Store.empty] at hi)

theorem reachable_whole (rs : List Request) (hr : ∀ r ∈ rs, r.WholeAmounts) :
    ∀ i ∈ (run Store.empty rs).invoices, i.WholeLedger :=
  run_whole rs Store.empty hr (by intro i hi; simp [Store.empty] at hi)

/-- C1, amended: in every store reached from the empty store by a finite sequence of
`createInvoice`, `addPayment`, `archiveInvoice` and `restoreInvoice` requests, accepted
or rejected, every stored invoice has `balanceDue` equal to the binary64 difference
`total - amountPaid`; and when every request of the sequence carries only integers
(non-negative integer quantities and unit prices with an exact total below `2^53`,
integer payment amounts), `balanceDue = total - amountPaid` exactly and
`balanceDue >= 0`. -/
theorem balance_invariant (rs : List Request) (inv : Invoice)
    (h : inv ∈ (run Store.empty rs).invoices) :
    inv.balanceDue = Double.sub inv.total inv.amountPaid
    ∧ ((∀ r ∈ rs, r.WholeAmounts) →
        inv.balanceDue = inv.total - inv.amountPaid ∧ 0 ≤ inv.balanceDue) := by
  refine ⟨reachable_derived rs inv h, fun hr => ?_⟩
  obtain ⟨_, _, _, hPT, _, hbal⟩ := reachable_whole rs hr inv h
  exact ⟨hbal, by rw [hbal]; linarith⟩

/-- C2, amended: for every invoice found in a reachable store and every amount `a` with
`0 < a <= balanceDue`, `addPayment` answers 201 and stores a payment of amount `a`
linked to the invoice; in the answer and in the stored invoice `amountPaid` is the
binary64 sum of the old `amountPaid` and `a`, and `balanceDue` the binary64 difference
of `total` and the new `amountPaid`.  When `total`, the old `amountPaid` and `a` are
integers, with `amountPaid >= 0` and `total < 2^53`, `amountPaid` is the old
`amountPaid` plus exactly `a` and `balanceDue` the old `balanceDue` minus exactly `a`. -/
theorem addPayment_applies (rs : List Request) (id : ObjectId) (inv : Invoice)
    (a : Double) (paymentDate : Option Nat) (now : Nat)
    (hfind : (run Store.empty rs).findById id = some inv) (hpos : 0 < a)
    (hle : a ≤ inv.balanceDue) :
    ∃ payment inv1,
      (addPayment (run Store.empty rs) id ⟨some a, paymentDate⟩ now).1
          = .created payment inv1.amountPaid inv1.balanceDue inv1.status
      ∧ payment.amount = a ∧ payment.invoiceId = id
      ∧ (addPayment (run Store.empty rs) id ⟨some a, paymentDate⟩ now).2.payments
          = (run Store.empty rs).payments ++ [payment]
      ∧ (addPayment (run Store.empty rs) id ⟨some a, paymentDate⟩ now).2.findById id
          = some inv1
      ∧ inv1.amountPaid = Double.add inv.amountPaid a
      ∧ inv1.balanceDue = Double.sub inv.total (Double.add inv.amountPaid a)
      ∧ inv1.total = inv.total
      ∧ (inv.total.IsInteger → inv.amountPaid.IsInteger → a.IsInteger →
          0 ≤ inv.amountPaid → inv.total.BelowSafeLimit →
          inv1.amountPaid = inv.amountPaid + a ∧ inv1.balanceDue = inv.balanceDue - a) := by
  have hd : inv.balanceDue = Double.sub inv.total inv.amountPaid :=
    reachable_derived rs inv (findById_mem hfind)
  refine ⟨⟨(run Store.empty rs).nextId, id, a, paymentDateOrNow paymentDate now⟩,
    inv.applyPayment a, ?_, rfl, rfl, ?_, ?_, applyPayment_amountPaid inv a,
    applyPayment_balanceDue inv a, applyPayment_total inv a, ?_⟩
  · rw [addPayment_accepted a paymentDate now hfind hpos hle]
  · rw [addPayment_accepted a paymentDate now hfind hpos hle]
    rfl
  · rw [addPayment_accepted a paymentDate now hfind hpos hle]
    exact findById_after_payment a _ _ hfind
  · intro hT hP ha hP0 hB
    have hB2 : inv.total < 2 ^ 53 * (Double.unit : Int) := hB
    have hbpos : 0 < Double.sub inv.total inv.amountPaid := by
      rw [← hd]; exact lt_of_lt_of_le hpos hle
    have hdiff : 0 < inv.total - inv.amountPaid := roundSigned_pos hbpos
    have hbal : inv.balanceDue = inv.total - inv.amountPaid := by
      rw [hd]
      exact Double.sub_exact hT hP (le_of_lt hdiff) (by linarith)
    have hle2 : a ≤ inv.total - inv.amountPaid := hbal ▸ hle
    have hadd : Double.add inv.amountPaid a = inv.amountPaid + a :=
      Double.add_exact hP ha (by linarith) (by linarith)
    have hsub : Double.sub inv.total (inv.amountPaid + a) = inv.total - (inv.amountPaid + a) :=
      Double.sub_exact hT (dvd_add hP ha) (by linarith) (by linarith)
    rw [applyPayment_amountPaid, applyPayment_balanceDue, hadd, hsub, hbal]
    exact ⟨rfl, by ring⟩


/-! ## The routes on sample data -/

section Evaluation

set_option exponentiation.threshold 5000
set_option maxRecDepth 8000

theorem addPayment_rejects_nonpositive_witness :
    addPayment Store.empty 7 ⟨some (Double.ofInt (-3)), none⟩ 0
      = (.badRequest "Amount must be greater than 0" none, Store.empty) :=
  addPayment_rejects_nonpositive Store.empty 7 ⟨some (Double.ofInt (-3)), none⟩ 0
    (Or.inr ⟨Double.ofInt (-3), rfl, by decide⟩)

theorem addPayment_rejects_overpayment_witness :
    addPayment sampleStore 0 ⟨some (Double.ofInt 26), none⟩ 9
      = (.badRequest "Payment amount cannot exceed balance due" (some sampleInvoice.balanceDue),
          sampleStore) :=
  addPayment_rejects_overpayment sampleStore 0 sampleInvoice (Double.ofInt 26) none 9 (by rfl)
    (by decide) (by decide)

theorem archive_restore_idempotent_witness :
    archiveInvoice (archiveInvoice sampleStore 0).2 0 = archiveInvoice sampleStore 0
      ∧ restoreInvoice (restoreInvoice sampleStore 0).2 0 = restoreInvoice sampleStore 0 :=
  ⟨(archive_restore_idempotent sampleStore 0 sampleInvoice (by rfl)).1.2,
    (archive_restore_idempotent sampleStore 0 sampleInvoice (by rfl)).2.2⟩

/-- C8, as stated, fails: the invoice of `archivedStore` is archived before the two
calls, and after `archiveInvoice` then `restoreInvoice` it is not. -/
theorem archive_then_restore_not_original :
    (archivedStore.findById 0).map Invoice.isArchived = some true
      ∧ ((restoreInvoice (archiveInvoice archivedStore 0).2 0).2.findById 0).map
          Invoice.isArchived = some false := by
  constructor <;> rfl

theorem archive_then_restore_witness :
    ∃ inv1, (restoreInvoice (archiveInvoice sampleStore 0).2 0).2.findById 0 = some inv1
      ∧ inv1 = { sampleInvoice with isArchived := false }
      ∧ (inv1.isArchived = sampleInvoice.isArchived ↔ sampleInvoice.isArchived = false) :=
  archive_then_restore sampleStore 0 sampleInvoice (by rfl)

theorem listInvoices_partition_witness :
    (listInvoices mixedStore none).Perm (mixedStore.invoices.filter (fun i => !i.isArchived))
      ∧ (listInvoices mixedStore (some "true") ++ listInvoices mixedStore none).Perm
          mixedStore.invoices :=
  ⟨((listInvoices_partition mixedStore none).2 (by simp)).1,
    ((listInvoices_partition mixedStore none).2 (by simp)).2.1⟩

theorem archive_flag_independent_witness :
    (addPayment (sampleStore.updateInvoice { sampleInvoice with isArchived := true }) 0
        ⟨some (Double.ofInt 10), none⟩ 9).1
        = (addPayment sampleStore 0 ⟨some (Double.ofInt 10), none⟩ 9).1
      ∧ archiveInvoice sampleStore 5 = (.notFound "Invoice not found", sampleStore) :=
  ⟨((archive_flag_independent sampleStore 0).2.2 sampleInvoice ⟨some (Double.ofInt 10), none⟩ 9
      true (by rfl)).1,
    ((archive_flag_independent sampleStore 5).2.1 (by rfl)).1⟩

/-- C6, as stated, fails.  The line item 94906267 x 94906267 is saved with `lineTotal`
9007199515875288, not the product 9007199515875289; and the line totals `2^53` and 1
give the invoice `total` `2^53`, not their sum `2^53 + 1`. -/
theorem createInvoice_totals_rounded :
    ((createInvoice Store.empty squareBody 7).2.lineItems.map
        (fun l => (l.quantity, l.unitPrice, l.lineTotal))
        = [(Double.ofInt 94906267, Double.ofInt 94906267, Double.ofInt 9007199515875288)]
      ∧ Double.ofInt 9007199515875288 ≠ Double.ofInt (94906267 * 94906267))
    ∧ ((createInvoice Store.empty largeBody 7).2.lineItems.map InvoiceLine.lineTotal
        = [Double.ofInt (2 ^ 53), Double.ofInt 1]
      ∧ (createInvoice Store.empty largeBody 7).1.total = Double.ofInt (2 ^ 53)
      ∧ Double.ofInt (2 ^ 53) ≠ Double.ofInt (2 ^ 53) + Double.ofInt 1) := by
  refine ⟨⟨by rfl, by decide⟩, by rfl, by rfl, by decide⟩

theorem createInvoice_totals_witness :
    (∃ new, (createInvoice Store.empty sampleBody 7).2.lineItems = new
        ∧ (∀ l ∈ new, l.lineTotal * (Double.unit : Int) = l.quantity * l.unitPrice)
        ∧ (createInvoice Store.empty sampleBody 7).1.total = (new.map InvoiceLine.lineTotal).sum)
    ∧ ((createInvoice Store.empty sampleBody 7).1.total = Double.ofInt 25
      ∧ (createInvoice Store.empty sampleBody 7).1.balanceDue = Double.ofInt 25
      ∧ (createInvoice Store.empty sampleBody 7).1.amountPaid = 0)
    ∧ ((createInvoice Store.empty ⟨"INV-3", "Cy", "2024-01-01", "2024-02-01", none⟩ 7).1.total = 0
      ∧ (createInvoice Store.empty ⟨"INV-3", "Cy", "2024-01-01", "2024-02-01", none⟩
          7).1.balanceDue = 0) := by
  obtain ⟨new, h1, _, _, _, h5⟩ := (createInvoice_totals Store.empty sampleBody 7).1
  have hsafe : SafeLineItems (sampleBody.lineItems.getD []) := by decide
  exact ⟨⟨new, by simpa [Store.empty] using h1, (h5 hsafe).1, (h5 hsafe).2⟩,
    ⟨by rfl, (createInvoice_totals Store.empty sampleBody 7).2.1.trans (by rfl),
      (createInvoice_totals Store.empty sampleBody 7).2.2.1⟩,
    (createInvoice_totals Store.empty ⟨"INV-3", "Cy", "2024-01-01", "2024-02-01", none⟩ 7).2.2.2.2
      (Or.inl rfl)⟩

/-- C1, as stated, fails: after an invoice of 0.11 is created, 0.04 is paid and then the
whole balance 0.07 is paid, the stored invoice has `amountPaid` 0.11000000000000001 and
`balanceDue` `-2^-56`, which is negative. -/
theorem balance_negative_after_drift :
    driftInvoice ∈ (run Store.empty driftRequests).invoices ∧ driftInvoice.balanceDue < 0 :=
  ⟨@findById_mem (run Store.empty driftRequests) 0 driftInvoice (by rfl), by decide⟩

theorem balance_invariant_witness :
    partPaidInvoice ∈ (run Store.empty sampleRequests).invoices
      ∧ partPaidInvoice.balanceDue = Double.sub partPaidInvoice.total partPaidInvoice.amountPaid
      ∧ (partPaidInvoice.balanceDue = partPaidInvoice.total - partPaidInvoice.amountPaid
        ∧ 0 ≤ partPaidInvoice.balanceDue) :=
  ⟨@findById_mem (run Store.empty sampleRequests) 0 partPaidInvoice (by rfl),
    (balance_invariant sampleRequests partPaidInvoice
      (@findById_mem (run Store.empty sampleRequests) 0 partPaidInvoice (by rfl))).1,
    (balance_invariant sampleRequests partPaidInvoice
      (@findById_mem (run Store.empty sampleRequests) 0 partPaidInvoice (by rfl))).2
      (by decide)⟩

/-- C2, as stated, fails: on the invoice of `centsRequests` (total 0.11, paid 0.04,
balance due 0.07) the payment of 0.07 is accepted, and the stored `amountPaid` is
0.11000000000000001, not 0.04 + 0.07, and the stored `balanceDue` is `-2^-56`, not
0.07 - 0.07. -/
theorem addPayment_not_exact :
    (run Store.empty centsRequests).findById 0 = some centsInvoice
    ∧ 0 < Double.ofQuotient 7 100 ∧ Double.ofQuotient 7 100 ≤ centsInvoice.balanceDue
    ∧ ((addPayment (run Store.empty centsRequests) 0 ⟨some (Double.ofQuotient 7 100), none⟩
          11).2.findById 0).map (fun i => (i.amountPaid, i.balanceDue))
        = some (Double.ofQuotient 11000000000000001 100000000000000000, -Double.ofQuotient 1 (2 ^ 56))
    ∧ Double.ofQuotient 11000000000000001 100000000000000000
        ≠ centsInvoice.amountPaid + Double.ofQuotient 7 100
    ∧ -Double.ofQuotient 1 (2 ^ 56) ≠ centsInvoice.balanceDue - Double.ofQuotient 7 100 := by
  refine ⟨by rfl, by decide, by decide, by rfl, by decide, by decide⟩

theorem addPayment_applies_witness :
    ∃ payment inv1,
      (addPayment (run Store.empty [.createInvoice sampleBody 7]) 0
          ⟨some (Double.ofInt 10), none⟩ 9).1
          = .created payment inv1.amountPaid inv1.balanceDue inv1.status
      ∧ (addPayment (run Store.empty [.createInvoice sampleBody 7]) 0
            ⟨some (Double.ofInt 10), none⟩ 9).2.findById 0 = some inv1
      ∧ inv1.amountPaid = sampleInvoice.amountPaid + Double.ofInt 10
      ∧ inv1.balanceDue = sampleInvoice.balanceDue - Double.ofInt 10 := by
  obtain ⟨payment, inv1, h1, _, _, _, h5, _, _, _, h9⟩ :=
    addPayment_applies [.createInvoice sampleBody 7] 0 sampleInvoice (Double.ofInt 10) none 9
      (by rfl) (by decide) (by decide)
  exact ⟨payment, inv1, h1, h5, h9 (by decide) (by decide) (by decide) (by decide) (by decide)⟩

/-- C3, the code at the failing input: on the invoice of `centsRequests` (total 0.11,
paid 0.04, balance due 0.07, status UNPAID) a payment of exactly the balance due, 0.07,
is accepted with 201, and both the answer and the stored invoice have `balanceDue`
`-2^-56` and status UNPAID, not PAID. -/
theorem full_payment_not_marked_paid :
    (run Store.empty centsRequests).findById 0 = some centsInvoice
    ∧ Double.ofQuotient 7 100 = centsInvoice.balanceDue
    ∧ 0 < centsInvoice.total
    ∧ (addPayment (run Store.empty centsRequests) 0 ⟨some (Double.ofQuotient 7 100), none⟩ 11).1
        = .created ⟨3, 0, Double.ofQuotient 7 100, 11⟩
            (Double.ofQuotient 11000000000000001 100000000000000000)
            (-Double.ofQuotient 1 (2 ^ 56)) "UNPAID"
    ∧ (addPayment (run Store.empty centsRequests) 0 ⟨some (Double.ofQuotient 7 100), none⟩
          11).2.findById 0 = some driftInvoice
    ∧ driftInvoice.status ≠ "PAID" := by
  refine ⟨by rfl, by rfl, by decide, by rfl, by rfl, by decide⟩

end Evaluation

end InvoiceModule
